import Mathlib

/-!
Shallow embedding of the file-uploader-api upload pipeline.

Sources embedded:
- the file validation utilities (magic-number content validation,
  metadata validation, stream validator);
- the S3 service (key generation, progress percentage, retryability
  classification, existence check, deletion);
- the upload business-logic service (retry loop, idempotent delete).

Byte buffers are `List Nat` (each entry a byte value), filenames are
`List Char`, machine integers are `Nat`/`Int`/`Rat` with JavaScript
semantics made explicit where they matter.
-/

/-- Entry of the MAGIC_NUMBERS object: either a concrete signature, or the
JavaScript value `null` meaning "no reliable signature, skip content
verification". A MIME type absent from the object corresponds to
`Option.none` at lookup. -/
inductive MagicEntry where
  | noSig : MagicEntry
  | sig : List Nat → MagicEntry
deriving DecidableEq, Repr

/-- Lookup in the MAGIC_NUMBERS object of the validator module.
`none` models a key that is not present (JavaScript `undefined`). -/
def magicOf (mime : String) : Option MagicEntry :=
  match mime with
  | "image/jpeg" => some (.sig [0xFF, 0xD8, 0xFF])
  | "image/png" => some (.sig [0x89, 0x50, 0x4E, 0x47])
  | "image/gif" => some (.sig [0x47, 0x49, 0x46])
  | "image/webp" => some (.sig [0x52, 0x49, 0x46, 0x46])
  | "application/pdf" => some (.sig [0x25, 0x50, 0x44, 0x46])
  | "text/plain" => some .noSig
  | "text/csv" => some .noSig
  | "video/mp4" => some (.sig [0x00, 0x00, 0x00, 0x18, 0x66, 0x74, 0x79, 0x70])
  | "audio/mpeg" => some (.sig [0xFF, 0xFB])
  | _ => none

/-- MAX_FILE_SIZE with its default value (no environment override in the
repository configuration): 10 MB. -/
def MAX_FILE_SIZE : Nat := 10 * 1024 * 1024

/-- ALLOWED_MIME_TYPES with its default value. -/
def ALLOWED_MIME_TYPES : List String :=
  ["image/jpeg", "image/png", "image/gif", "image/webp", "application/pdf",
   "text/plain", "text/csv", "video/mp4", "audio/mpeg"]

/-- Reasons produced by `validateFileContent`; each constructor stands for
the corresponding error string built in the source. -/
inductive ContentReason where
  /-- "No file content to validate" -/
  | noContent : ContentReason
  /-- "Insufficient file content for validation" -/
  | insufficient : ContentReason
  /-- "File content does not match expected MIME type mime" -/
  | mismatch : String → ContentReason
  /-- "Magic number validation failed" (timingSafeEqual threw) -/
  | magicFailed : ContentReason
deriving DecidableEq, Repr

/-- Result shape of `validateFileContent`. -/
inductive ContentCheck where
  | valid : ContentCheck
  | invalid : ContentReason → ContentCheck
deriving DecidableEq, Repr

/-- The Node primitive crypto.timingSafeEqual: throws (here `Except.error`) when the two
buffers differ in length, otherwise reports byte equality in time that
depends only on the length. -/
def timingSafeEqual (a b : List Nat) : Except Unit Bool :=
  if a.length = b.length then .ok (a == b) else .error ()

/-- validateFileContent from the validator module: magic-number check of the
buffer against the declared MIME type. -/
def validateFileContent (buffer : List Nat) (expectedMimeType : String) : ContentCheck :=
  if buffer.isEmpty then .invalid .noContent
  else
    match magicOf expectedMimeType with
    | some .noSig => .valid
    | none => .invalid .insufficient
    | some (.sig m) =>
      if buffer.length < m.length then .invalid .insufficient
      else
        match timingSafeEqual m (buffer.take m.length) with
        | .error _ => .invalid .magicFailed
        | .ok true => .valid
        | .ok false => .invalid (.mismatch expectedMimeType)

/-- Number of byte comparisons the one-shot content check performs.
The early-return branches compare nothing; the timingSafeEqual call
always touches every byte of the signature (its documented constant-time
behaviour), so its cost is the signature length, independent of the
buffer contents. -/
def validateFileContentCost (buffer : List Nat) (expectedMimeType : String) : Nat :=
  if buffer.isEmpty then 0
  else
    match magicOf expectedMimeType with
    | some .noSig => 0
    | none => 0
    | some (.sig m) => if buffer.length < m.length then 0 else m.length

/-- Every signature in the MAGIC_NUMBERS object is non-empty. -/
theorem magicOf_sig_length_pos (mime : String) (m : List Nat)
    (h : magicOf mime = some (.sig m)) : 0 < m.length := by
  unfold magicOf at h
  split at h <;> simp_all
  all_goals subst h
  all_goals decide

/-- C2: for every declared MIME type with a signature of length N,
a buffer whose first N bytes equal the signature is accepted, and a buffer
of length at least N whose first N bytes differ is rejected with the
content-mismatch reason naming the MIME type. -/
theorem C2_magic_number_decides_content
    (mime : String) (m : List Nat) (buffer : List Nat)
    (hm : magicOf mime = some (.sig m)) :
    (buffer.take m.length = m → validateFileContent buffer mime = .valid) ∧
    (m.length ≤ buffer.length → buffer.take m.length ≠ m →
      validateFileContent buffer mime = .invalid (.mismatch mime)) := by
  have hpos := magicOf_sig_length_pos mime m hm
  constructor
  · intro htake
    have hlen : m.length ≤ buffer.length := by
      have h1 := congrArg List.length htake
      rw [List.length_take] at h1
      omega
    have hbne : ¬ buffer.isEmpty = true := by
      intro hb
      rw [List.isEmpty_iff] at hb
      subst hb
      simp only [List.length_nil, Nat.le_zero] at hlen
      omega
    have hnlt : ¬ buffer.length < m.length := by omega
    simp [validateFileContent, hm, hbne, hnlt, timingSafeEqual, htake]
  · intro hlen hne
    have hbne : ¬ buffer.isEmpty = true := by
      intro hb
      rw [List.isEmpty_iff] at hb
      subst hb
      simp only [List.length_nil, Nat.le_zero] at hlen
      omega
    have hnlt : ¬ buffer.length < m.length := by omega
    have hmin : min m.length buffer.length = m.length := by omega
    have hbeq : (m == buffer.take m.length) = false := by
      rw [beq_eq_false_iff_ne]
      exact fun h => hne h.symm
    simp [validateFileContent, hm, hbne, hnlt, timingSafeEqual, List.length_take,
      hmin, hbeq]

/-- Witness for C2 at the PNG signature: an exact-prefix buffer is accepted
and a corrupted-prefix buffer is rejected with the mismatch reason. -/
theorem C2_magic_number_decides_content_witness :
    validateFileContent [0x89, 0x50, 0x4E, 0x47, 0x00] "image/png" = .valid ∧
    validateFileContent [0x00, 0x50, 0x4E, 0x47] "image/png" =
      .invalid (.mismatch "image/png") := by
  refine ⟨?_, ?_⟩
  · exact (C2_magic_number_decides_content "image/png" [0x89, 0x50, 0x4E, 0x47]
      [0x89, 0x50, 0x4E, 0x47, 0x00] rfl).1 (by decide)
  · exact (C2_magic_number_decides_content "image/png" [0x89, 0x50, 0x4E, 0x47]
      [0x00, 0x50, 0x4E, 0x47] rfl).2 (by decide) (by decide)

/-- C8: for every declared MIME type with a signature of length N, a buffer
with fewer than N bytes is rejected: with the insufficient-content reason
when it is non-empty, and with the no-content reason when it is empty; it
is never accepted. -/
theorem C8_short_buffer_rejected
    (mime : String) (m : List Nat) (buffer : List Nat)
    (hm : magicOf mime = some (.sig m)) (hlt : buffer.length < m.length) :
    validateFileContent buffer mime =
      .invalid (if buffer.isEmpty then .noContent else .insufficient) := by
  by_cases hb : buffer.isEmpty = true
  · simp [validateFileContent, hb]
  · simp [validateFileContent, hb, hm, hlt]

/-- Witness for C8: a two-byte buffer declared as PNG (signature length 4)
is rejected as insufficient. -/
theorem C8_short_buffer_rejected_witness :
    validateFileContent [0x89, 0x50] "image/png" = .invalid .insufficient := by
  have h := C8_short_buffer_rejected "image/png" [0x89, 0x50, 0x4E, 0x47]
    [0x89, 0x50] rfl (by decide)
  simpa using h

/-- State captured by the closure returned from createStreamValidator:
the running byte count and whether the magic-number header has been
checked yet. -/
structure SVState where
  bytesProcessed : Nat
  headerValidated : Bool
deriving DecidableEq, Repr

/-- Verdict of one validateChunk call. Both failure verdicts carry
shouldAbort = true in the source. -/
inductive ChunkVerdict where
  /-- isValid true, with bytesProcessed and the progress value -/
  | ok : Nat → Rat → ChunkVerdict
  /-- size-limit failure, shouldAbort = true -/
  | sizeExceeded : ChunkVerdict
  /-- magic-number failure for the declared type, shouldAbort = true -/
  | contentMismatch : String → ChunkVerdict
deriving DecidableEq, Repr

/-- The signature the stream validator checks against: the guard
`magicNumbers && ...` treats both a null entry and an absent MIME type the
same way (no header check), collapsed here into `none`. -/
def magicSigOf (mime : String) : Option (List Nat) :=
  match magicOf mime with
  | some (.sig m) => some m
  | _ => none

/-- Result of the byte loop of validateChunk: compares the leading bytes of
the chunk against the signature, returning false at the first difference. -/
def magicPrefixOk : List Nat → List Nat → Bool
  | [], _ => true
  | _ :: _, [] => true
  | mb :: ms, cb :: cs => if cb ≠ mb then false else magicPrefixOk ms cs

/-- Number of loop iterations (byte comparisons) the validateChunk byte loop
executes: it stops at the first differing byte. -/
def magicPrefixSteps : List Nat → List Nat → Nat
  | [], _ => 0
  | _ :: _, [] => 0
  | mb :: ms, cb :: cs => if cb ≠ mb then 1 else 1 + magicPrefixSteps ms cs

/-- Progress value reported by validateChunk:
min((bytesProcessed / maxSize) * 100, 100). -/
def chunkProgress (bytes maxSize : Nat) : Rat :=
  min ((bytes : Rat) / (maxSize : Rat) * 100) 100

/-- validateChunk of the stream validator: updates the byte count, enforces
the size budget, and runs the magic-number loop only when the header has not
been validated yet, a signature exists, and this chunk alone holds at least
as many bytes as the signature. -/
def validateChunk (expectedMimeType : String) (maxSize : Nat) (st : SVState)
    (chunk : List Nat) : ChunkVerdict × SVState :=
  let bytes := st.bytesProcessed + chunk.length
  if maxSize < bytes then
    (.sizeExceeded, ⟨bytes, st.headerValidated⟩)
  else
    match magicSigOf expectedMimeType with
    | some m =>
      if st.headerValidated = false ∧ m.length ≤ chunk.length then
        if magicPrefixOk m chunk then
          (.ok bytes (chunkProgress bytes maxSize), ⟨bytes, true⟩)
        else
          (.contentMismatch expectedMimeType, ⟨bytes, false⟩)
      else (.ok bytes (chunkProgress bytes maxSize), ⟨bytes, st.headerValidated⟩)
    | none => (.ok bytes (chunkProgress bytes maxSize), ⟨bytes, st.headerValidated⟩)

/-- Byte comparisons performed by one validateChunk call: zero unless the
magic-number loop runs. -/
def validateChunkSteps (expectedMimeType : String) (maxSize : Nat) (st : SVState)
    (chunk : List Nat) : Nat :=
  let bytes := st.bytesProcessed + chunk.length
  if maxSize < bytes then 0
  else
    match magicSigOf expectedMimeType with
    | some m =>
      if st.headerValidated = false ∧ m.length ≤ chunk.length then
        magicPrefixSteps m chunk
      else 0
    | none => 0

/-- Drives the stream validator over a list of chunks from a given state,
stopping at the first rejected chunk (the caller aborts on shouldAbort);
returns true when every chunk was accepted. -/
def runStreamValidator (mime : String) (maxSize : Nat) :
    List (List Nat) → SVState → Bool
  | [], _ => true
  | c :: cs, st =>
    match validateChunk mime maxSize st c with
    | (.ok _ _, st2) => runStreamValidator mime maxSize cs st2
    | _ => false

/-- Whole-stream acceptance starting from the initial closure state. -/
def streamAccepts (mime : String) (maxSize : Nat) (chunks : List (List Nat)) : Bool :=
  runStreamValidator mime maxSize chunks ⟨0, false⟩

/-- C4 counterexample: for the declared type image/png (signature length 4),
the stream [0x00], [0x89,0x50,0x4E,0x47] has first four bytes
0x00,0x89,0x50,0x4E, which differ from the signature, yet the stream
validator accepts every chunk: the short first chunk is never checked and
the second chunk is compared against its own leading bytes. -/
theorem C4_counterexample :
    magicOf "image/png" = some (.sig [0x89, 0x50, 0x4E, 0x47]) ∧
    streamAccepts "image/png" MAX_FILE_SIZE [[0x00], [0x89, 0x50, 0x4E, 0x47]] = true ∧
    (List.flatten [[0x00], [0x89, 0x50, 0x4E, 0x47]]).take 4 ≠ [0x89, 0x50, 0x4E, 0x47] := by
  refine ⟨rfl, ?_, by decide⟩
  decide

/-- Relation between the validateChunk byte loop and a prefix comparison:
when the chunk holds at least as many bytes as the signature, the loop
succeeds exactly when the leading bytes of this chunk equal the signature. -/
theorem magicPrefixOk_iff_take (m chunk : List Nat) (h : m.length ≤ chunk.length) :
    magicPrefixOk m chunk = true ↔ chunk.take m.length = m := by
  induction m generalizing chunk with
  | nil => simp [magicPrefixOk]
  | cons mb ms ih =>
    cases chunk with
    | nil => simp at h
    | cons cb cs =>
      simp only [List.length_cons, Nat.add_le_add_iff_right] at h
      by_cases hcb : cb = mb
      · subst hcb
        simp [magicPrefixOk, ih cs h]
      · simp [magicPrefixOk, hcb]

/-- C4 amended: the stream validator keeps bytesProcessed and
headerValidated across chunks, but the header check is per-chunk: while the
header is unvalidated and the size budget is met, a chunk shorter than the
signature is accepted without any byte inspection and leaves the header
unvalidated, and a chunk at least as long as the signature is rejected
exactly when its own leading bytes differ from the signature (bytes from
earlier chunks are never consulted). -/
theorem C4_amended (mime : String) (m : List Nat) (maxSize : Nat)
    (st : SVState) (chunk : List Nat)
    (hm : magicSigOf mime = some m)
    (hsv : st.headerValidated = false)
    (hsize : st.bytesProcessed + chunk.length ≤ maxSize) :
    (chunk.length < m.length →
      validateChunk mime maxSize st chunk =
        (.ok (st.bytesProcessed + chunk.length)
          (chunkProgress (st.bytesProcessed + chunk.length) maxSize),
         ⟨st.bytesProcessed + chunk.length, false⟩)) ∧
    (m.length ≤ chunk.length →
      ((validateChunk mime maxSize st chunk).1 = .contentMismatch mime ↔
        chunk.take m.length ≠ m)) := by
  have hns : ¬ maxSize < st.bytesProcessed + chunk.length := by omega
  constructor
  · intro hlt
    have hnle : ¬ m.length ≤ chunk.length := by omega
    simp [validateChunk, hns, hm, hsv, hnle]
  · intro hle
    have hcond : st.headerValidated = false ∧ m.length ≤ chunk.length := ⟨hsv, hle⟩
    by_cases hok : magicPrefixOk m chunk = true
    · have htake := (magicPrefixOk_iff_take m chunk hle).mp hok
      simp [validateChunk, hns, hm, hcond, hok, htake]
    · have htake : ¬ chunk.take m.length = m :=
        fun h => hok ((magicPrefixOk_iff_take m chunk hle).mpr h)
      simp [validateChunk, hns, hm, hcond, hok, htake]

/-- Witness for C4 amended at image/png: a three-byte chunk passes without
inspection, and a four-byte chunk with a wrong first byte is rejected. -/
theorem C4_amended_witness :
    validateChunk "image/png" MAX_FILE_SIZE ⟨0, false⟩ [0x00, 0x00, 0x00] =
      (.ok 3 (chunkProgress 3 MAX_FILE_SIZE), ⟨3, false⟩) ∧
    (validateChunk "image/png" MAX_FILE_SIZE ⟨0, false⟩ [0x00, 0x50, 0x4E, 0x47]).1 =
      .contentMismatch "image/png" := by
  constructor
  · exact (C4_amended "image/png" [0x89, 0x50, 0x4E, 0x47] MAX_FILE_SIZE
      ⟨0, false⟩ [0x00, 0x00, 0x00] rfl rfl (by decide)).1 (by decide)
  · exact ((C4_amended "image/png" [0x89, 0x50, 0x4E, 0x47] MAX_FILE_SIZE
      ⟨0, false⟩ [0x00, 0x50, 0x4E, 0x47] rfl rfl (by decide)).2 (by decide)).mpr
      (by decide)

/-- Length of the agreeing leading segment of signature and chunk: the
number of positions before the first differing byte. -/
def agreeLen : List Nat → List Nat → Nat
  | mb :: ms, cb :: cs => if cb = mb then 1 + agreeLen ms cs else 0
  | _, _ => 0

/-- C5 counterexample: two chunks that are both rejected by the streaming
header check, one differing from the PNG signature at its first byte, the
other at its last byte; the streaming path performs 1 byte comparison on
the first and 4 on the second, so the comparison is not constant-time. -/
theorem C5_counterexample :
    (validateChunk "image/png" MAX_FILE_SIZE ⟨0, false⟩ [0x00, 0x50, 0x4E, 0x47]).1 =
      .contentMismatch "image/png" ∧
    (validateChunk "image/png" MAX_FILE_SIZE ⟨0, false⟩ [0x89, 0x50, 0x4E, 0x00]).1 =
      .contentMismatch "image/png" ∧
    validateChunkSteps "image/png" MAX_FILE_SIZE ⟨0, false⟩ [0x00, 0x50, 0x4E, 0x47] = 1 ∧
    validateChunkSteps "image/png" MAX_FILE_SIZE ⟨0, false⟩ [0x89, 0x50, 0x4E, 0x00] = 4 := by
  refine ⟨?_, ?_, by decide, by decide⟩ <;> decide

/-- C5 amended: only the one-shot buffer path is constant-time.
For every declared MIME type with a signature, the one-shot check performs
exactly the signature length of byte comparisons on any sufficiently long
non-empty buffer, independent of content; the streaming path instead
short-circuits, performing one comparison more than the number of agreeing
leading bytes (capped at the signature length), so its running behaviour
depends on the position of the first differing byte. -/
theorem C5_amended :
    (∀ (mime : String) (m buffer : List Nat),
      magicOf mime = some (.sig m) → buffer ≠ [] → m.length ≤ buffer.length →
      validateFileContentCost buffer mime = m.length) ∧
    (∀ (m chunk : List Nat), m.length ≤ chunk.length →
      magicPrefixSteps m chunk = min (agreeLen m chunk + 1) m.length) := by
  constructor
  · intro mime m buffer hm hne hlen
    have hb : ¬ buffer.isEmpty = true := by
      rw [List.isEmpty_iff]
      exact hne
    have hnlt : ¬ buffer.length < m.length := by omega
    simp [validateFileContentCost, hb, hm, hnlt]
  · intro m chunk hlen
    induction m generalizing chunk with
    | nil => simp [magicPrefixSteps]
    | cons mb ms ih =>
      cases chunk with
      | nil => simp at hlen
      | cons cb cs =>
        simp only [List.length_cons, Nat.add_le_add_iff_right] at hlen
        by_cases hcb : cb = mb
        · have h1 : magicPrefixSteps (mb :: ms) (cb :: cs) = 1 + magicPrefixSteps ms cs := by
            simp [magicPrefixSteps, hcb]
          have h2 : agreeLen (mb :: ms) (cb :: cs) = 1 + agreeLen ms cs := by
            simp [agreeLen, hcb]
          rw [h1, h2, ih cs hlen, List.length_cons]
          omega
        · have h1 : magicPrefixSteps (mb :: ms) (cb :: cs) = 1 := by
            simp [magicPrefixSteps, hcb]
          have h2 : agreeLen (mb :: ms) (cb :: cs) = 0 := by
            simp [agreeLen, hcb]
          rw [h1, h2, List.length_cons]
          omega

/-- Witness for C5 amended: the one-shot PNG check costs 4 comparisons on a
matching buffer, and the streaming loop on a chunk agreeing with the PNG
signature only at its first byte performs exactly 2 comparisons. -/
theorem C5_amended_witness :
    validateFileContentCost [0x89, 0x50, 0x4E, 0x47, 0x00] "image/png" = 4 ∧
    magicPrefixSteps [0x89, 0x50, 0x4E, 0x47] [0x89, 0x00, 0x00, 0x00] =
      min (agreeLen [0x89, 0x50, 0x4E, 0x47] [0x89, 0x00, 0x00, 0x00] + 1) 4 := by
  constructor
  · exact C5_amended.1 "image/png" [0x89, 0x50, 0x4E, 0x47]
      [0x89, 0x50, 0x4E, 0x47, 0x00] rfl (by decide) (by decide)
  · exact C5_amended.2 [0x89, 0x50, 0x4E, 0x47] [0x89, 0x00, 0x00, 0x00] (by decide)

/-- JavaScript Math.round on a nonnegative rational: round half away from
zero, i.e. the floor of q + 1/2. -/
def jsRound (q : Rat) : Int := ⌊q + 1/2⌋

/-- Percentage computed by the httpUploadProgress handler of both
uploadFileToS3 and uploadStreamToS3:
Math.round((progress.loaded / progress.total) * 100). -/
def progressPercentage (loaded total : Nat) : Int :=
  jsRound ((loaded : Rat) / (total : Rat) * 100)

/-- Closed form of the progress percentage: the half-up rounding of
100 * loaded / total is the natural-number quotient (200 * loaded + total)
divided by (2 * total). -/
theorem progressPercentage_closed_form (b t : Nat) (ht : 0 < t) :
    progressPercentage b t = (((200 * b + t) / (2 * t) : Nat) : Int) := by
  unfold progressPercentage jsRound
  have ht0 : (t : Rat) ≠ 0 := by
    exact_mod_cast Nat.pos_iff_ne_zero.mp ht
  have h1 : ((b : Rat) / (t : Rat) * 100 + 1/2) =
      (((200 * b + t : Nat) : Int) : Rat) / ((2 * t : Nat) : Rat) := by
    push_cast
    field_simp
    ring
  rw [h1, Rat.floor_intCast_div_natCast, Int.natCast_div]

/-- C3 counterexample: at bytesTransferred 2 of totalBytes 3 the reported
percentage is 67 (Math.round), not floor(100 * 2 / 3) = 66. -/
theorem C3_counterexample :
    progressPercentage 2 3 = 67 ∧ ((100 * 2 / 3 : Nat) : Int) = 66 ∧
    progressPercentage 2 3 ≠ ((100 * 2 / 3 : Nat) : Int) := by
  have h := progressPercentage_closed_form 2 3 (by decide)
  have h67 : progressPercentage 2 3 = 67 := by
    rw [h]
    decide
  refine ⟨h67, by decide, ?_⟩
  rw [h67]
  decide

/-- C3 amended: for every progress event with bytesTransferred b and
totalBytes t (t positive), the reported percentage is the half-up rounding
of 100 * b / t, that is floor((200 * b + t) / (2 * t)) — not the plain
floor. -/
theorem C3_amended (b t : Nat) (ht : 0 < t) :
    progressPercentage b t = (((200 * b + t) / (2 * t) : Nat) : Int) :=
  progressPercentage_closed_form b t ht

/-- Witness for C3 amended at loaded 1, total 200: the reported percentage
is (200 + 200) / 400 = 1, where a plain floor would report 0. -/
theorem C3_amended_witness :
    progressPercentage 1 200 = (((200 * 1 + 200) / (2 * 200) : Nat) : Int) :=
  C3_amended 1 200 (by decide)

/-- Character class kept by the sanitizer regex of generateS3Key:
letters, digits, dot and hyphen; everything else becomes an underscore. -/
def isAllowedKeyChar (c : Char) : Bool :=
  c.isAlpha || c.isDigit || c = '.' || c = '-'

/-- The replace call of generateS3Key: every character outside the allowed
class is replaced with an underscore. -/
def sanitizeFilename (name : List Char) : List Char :=
  name.map (fun c => if isAllowedKeyChar c then c else '_')

/-- Index of the last dot of a character list, if any. -/
def lastDotIdx : List Char → Option Nat
  | [] => none
  | c :: cs =>
    match lastDotIdx cs with
    | some i => some (i + 1)
    | none => if c = '.' then some 0 else none

/-- The Node function path.extname specialized to inputs that contain no path
separator (generateS3Key only applies it to sanitized names, which cannot
contain a slash): empty when there is no dot, when the only dot is the
leading character, or when the whole name is ".."; otherwise the suffix
from the last dot. -/
def extnameNS (s : List Char) : List Char :=
  match lastDotIdx s with
  | none => []
  | some 0 => []
  | some (k + 1) => if s = ['.', '.'] then [] else s.drop (k + 1)

/-- The Node function path.basename with an extension argument, specialized to inputs
without path separators: strips the extension when it is a non-empty proper
suffix, returns the name unchanged otherwise (including the Node quirk that a
name equal to the extension is kept whole). -/
def basenameNS (s ext : List Char) : List Char :=
  if ext ≠ [] ∧ ext ≠ s ∧ s.drop (s.length - ext.length) = ext then
    s.take (s.length - ext.length)
  else s

/-- Lowercase hexadecimal digit for a value below 16. -/
def hexDigit (n : Nat) : Char :=
  if n < 10 then Char.ofNat (48 + n) else Char.ofNat (97 + (n - 10))

/-- Buffer.toString of one byte in hexadecimal: two lowercase digits. -/
def byteToHexChars (b : Nat) : List Char :=
  [hexDigit (b / 16), hexDigit (b % 16)]

/-- crypto.randomBytes(n).toString of a byte list in hexadecimal. -/
def bytesToHex (bs : List Nat) : List Char :=
  (bs.map byteToHexChars).flatten

/-- generateS3Key of the S3 service, with the two effectful inputs
(Date.now() and crypto.randomBytes(8)) passed explicitly: sanitizes the
whole original filename, splits the sanitized name into extension and
base, and assembles prefix/timestamp-randomHex-base+extension. -/
def generateS3Key (timestamp : Nat) (randomId : List Nat)
    (originalFilename : List Char) (pfx : List Char) : List Char :=
  let sanitizedFilename := sanitizeFilename originalFilename
  let extension := extnameNS sanitizedFilename
  let nameWithoutExt := basenameNS sanitizedFilename extension
  pfx ++ ['/'] ++ (Nat.repr timestamp).toList ++ ['-'] ++ bytesToHex randomId ++
    ['-'] ++ nameWithoutExt ++ extension

/-- Key format asserted by the claim, built from the words of the spec: only the
base name is sanitized and the extension of the original filename is
appended verbatim. -/
def specKeyClaimC6 (timestamp : Nat) (randomId : List Nat)
    (originalFilename : List Char) (pfx : List Char) : List Char :=
  let extension := extnameNS originalFilename
  let base := basenameNS originalFilename extension
  pfx ++ ['/'] ++ (Nat.repr timestamp).toList ++ ['-'] ++ bytesToHex randomId ++
    ['-'] ++ sanitizeFilename base ++ extension

/-- The last-dot index is a position inside the list. -/
theorem lastDotIdx_lt_length (s : List Char) (k : Nat)
    (h : lastDotIdx s = some k) : k < s.length := by
  induction s generalizing k with
  | nil => simp [lastDotIdx] at h
  | cons c cs ih =>
    unfold lastDotIdx at h
    cases hcs : lastDotIdx cs with
    | some i =>
      rw [hcs] at h
      have := ih i hcs
      simp at h
      simp [← h]
      omega
    | none =>
      rw [hcs] at h
      by_cases hc : c = '.'
      · simp [hc] at h
        simp [← h]
      · simp [hc] at h

/-- Splitting a name with extnameNS and basenameNS and concatenating the two
parts restores the name. -/
theorem extname_recomp (s : List Char) :
    basenameNS s (extnameNS s) ++ extnameNS s = s := by
  unfold extnameNS
  cases hld : lastDotIdx s with
  | none => simp [basenameNS]
  | some k =>
    cases k with
    | zero => simp [basenameNS]
    | succ k =>
      by_cases hdd : s = ['.', '.']
      · simp [hdd, basenameNS]
      · simp only [hdd, if_false, ite_false, if_neg, not_false_iff]
        have hk := lastDotIdx_lt_length s (k + 1) hld
        have hlen : (s.drop (k + 1)).length = s.length - (k + 1) :=
          List.length_drop (k + 1) s
        have hne : s.drop (k + 1) ≠ [] := by
          intro h
          have := congrArg List.length h
          rw [hlen] at this
          simp at this
          omega
        have hnes : s.drop (k + 1) ≠ s := by
          intro h
          have := congrArg List.length h
          rw [hlen] at this
          omega
        have harith : s.length - (s.length - (k + 1)) = k + 1 := by omega
        have hsuf : s.drop (s.length - (s.drop (k + 1)).length) = s.drop (k + 1) := by
          rw [hlen, harith]
        unfold basenameNS
        rw [if_pos ⟨hne, hnes, hsuf⟩, hlen]
        rw [harith, List.take_append_drop]

/-- Two lowercase hex characters per random byte. -/
theorem bytesToHex_length (bs : List Nat) :
    (bytesToHex bs).length = 2 * bs.length := by
  induction bs with
  | nil => simp [bytesToHex]
  | cons b bs ih =>
    simp only [bytesToHex, List.map_cons, List.flatten_cons] at *
    simp [byteToHexChars, ih]
    omega

/-- C6 counterexample: for the filename "a.t@r" the generated key sanitizes
the extension too (".t_r"), so it differs from the claimed format, which
keeps the original extension ".t@r" verbatim. -/
theorem C6_counterexample :
    generateS3Key 0 [0, 0, 0, 0, 0, 0, 0, 0] ("a.t@r".toList) ("uploads".toList) ≠
      specKeyClaimC6 0 [0, 0, 0, 0, 0, 0, 0, 0] ("a.t@r".toList) ("uploads".toList) := by
  decide

/-- C6 amended: the generated key is
prefix/timestamp-hex(randomId)-sanitize(originalFilename): the whole
filename, extension included, is sanitized (so the extension is preserved
verbatim, case untouched, only when all its characters lie in
[A-Za-z0-9.-]); the random component is two lowercase hex characters per
random byte, hence 16 characters for the 8 random bytes drawn. -/
theorem C6_amended (timestamp : Nat) (randomId : List Nat)
    (originalFilename pfx : List Char) :
    generateS3Key timestamp randomId originalFilename pfx =
      pfx ++ ['/'] ++ (Nat.repr timestamp).toList ++ ['-'] ++
        bytesToHex randomId ++ ['-'] ++ sanitizeFilename originalFilename ∧
    (randomId.length = 8 → (bytesToHex randomId).length = 16) := by
  constructor
  · unfold generateS3Key
    conv_rhs => rw [← extname_recomp (sanitizeFilename originalFilename)]
    simp [List.append_assoc]
  · intro h8
    rw [bytesToHex_length, h8]

/-- Witness for C6 amended at a concrete filename and 8 zero bytes. -/
theorem C6_amended_witness :
    generateS3Key 0 [0, 0, 0, 0, 0, 0, 0, 0] ("a b.PNG".toList) ("uploads".toList) =
      "uploads".toList ++ ['/'] ++ (Nat.repr 0).toList ++ ['-'] ++
        bytesToHex [0, 0, 0, 0, 0, 0, 0, 0] ++ ['-'] ++
        sanitizeFilename ("a b.PNG".toList) ∧
    (bytesToHex [0, 0, 0, 0, 0, 0, 0, 0]).length = 16 := by
  have h := C6_amended 0 [0, 0, 0, 0, 0, 0, 0, 0] ("a b.PNG".toList) ("uploads".toList)
  exact ⟨h.1, h.2 rfl⟩

/-- Retryability decided in the catch handler of uploadFileToS3 (buffer
variant): not retryable exactly for the four listed error names. -/
def uploadFileRetryable (errorName : String) : Bool :=
  !(["ValidationException", "AccessDenied", "InvalidBucketName",
     "InvalidArgument"].contains errorName)

/-- Retryability decided in the catch handler of uploadStreamToS3 (stream
variant): its list omits InvalidArgument. -/
def uploadStreamRetryable (errorName : String) : Bool :=
  !(["ValidationException", "AccessDenied", "InvalidBucketName"].contains errorName)

/-- Non-retryable error codes of classifyError in the error middleware. -/
def nonRetryableErrors : List String :=
  ["ValidationError", "ValidationException", "AccessDenied", "InvalidBucketName",
   "InvalidArgument", "INVALID_FILE", "INVALID_FILE_TYPE", "INVALID_FILE_EXTENSION",
   "FILE_TOO_LARGE", "TOO_MANY_FILES", "NO_FILE", "ENOENT", "EISDIR", "EACCES",
   "EMFILE", "ENFILE"]

/-- Retryable error codes of classifyError in the error middleware. -/
def retryableErrors : List String :=
  ["ECONNRESET", "ECONNREFUSED", "ETIMEDOUT", "ENOTFOUND", "EAI_AGAIN",
   "EHOSTUNREACH", "ENETUNREACH", "EPIPE", "UPLOAD_ERROR", "S3_ERROR",
   "NETWORK_ERROR"]

/-- classifyError of the error middleware, reduced to its retryable output:
explicit retryable list first, then the non-retryable list, then HTTP
status ranges (a zero status is falsy in the source and skips the range
check), defaulting to retryable. -/
def classifyErrorRetryable (errorCode : String) (statusCode : Option Nat) : Bool :=
  if retryableErrors.contains errorCode then true
  else if nonRetryableErrors.contains errorCode then false
  else
    match statusCode with
    | some sc =>
      if sc = 0 then true
      else if 400 ≤ sc ∧ sc < 500 then false
      else if 500 ≤ sc then true
      else true
    | none => true

/-- C7 counterexample: a stream-upload store failure named InvalidArgument
is marked retryable, although the claim requires retryable = false for both
upload variants. -/
theorem C7_counterexample :
    uploadStreamRetryable "InvalidArgument" = true ∧
    uploadFileRetryable "InvalidArgument" = false := by
  exact ⟨rfl, rfl⟩

/-- C7 amended: the buffer variant marks AccessDenied, InvalidBucketName
and InvalidArgument non-retryable, but the stream variant only the first
two: InvalidArgument stays retryable there, diverging from the claim and
from the central classifyError, which marks it non-retryable; any error
name outside the explicit lists is retryable on both variants. -/
theorem C7_amended :
    (∀ n, n ∈ ["AccessDenied", "InvalidBucketName", "InvalidArgument"] →
      uploadFileRetryable n = false) ∧
    (∀ n, n ∈ ["AccessDenied", "InvalidBucketName"] →
      uploadStreamRetryable n = false) ∧
    uploadStreamRetryable "InvalidArgument" = true ∧
    classifyErrorRetryable "InvalidArgument" none = false ∧
    (∀ n, n ∉ ["ValidationException", "AccessDenied", "InvalidBucketName",
        "InvalidArgument"] →
      uploadFileRetryable n = true ∧ uploadStreamRetryable n = true) := by
  refine ⟨?_, ?_, rfl, rfl, ?_⟩
  · intro n hn
    fin_cases hn <;> rfl
  · intro n hn
    fin_cases hn <;> rfl
  · intro n hn
    simp only [List.mem_cons, List.not_mem_nil, or_false, not_or] at hn
    obtain ⟨h1, h2, h3, h4⟩ := hn
    constructor <;>
      simp [uploadFileRetryable, uploadStreamRetryable, h1, h2, h3, h4]

/-- Witness for C7 amended at concrete error names. -/
theorem C7_amended_witness :
    uploadFileRetryable "InvalidArgument" = false ∧
    uploadStreamRetryable "InvalidBucketName" = false ∧
    uploadFileRetryable "NoSuchUpload" = true ∧
    uploadStreamRetryable "NoSuchUpload" = true := by
  refine ⟨?_, ?_, ?_, ?_⟩
  · exact C7_amended.1 "InvalidArgument" (by simp)
  · exact C7_amended.2.1 "InvalidBucketName" (by simp)
  · exact (C7_amended.2.2.2.2 "NoSuchUpload" (by simp)).1
  · exact (C7_amended.2.2.2.2 "NoSuchUpload" (by simp)).2

/-- Structured result returned by one call of the wrapped upload function:
either a success value, or a failure carrying the retryable flag of its
error object and an error payload. -/
inductive UResult (α ε : Type) where
  | success : α → UResult α ε
  | failure : Bool → ε → UResult α ε
deriving DecidableEq, Repr

/-- One attempt of the wrapped operation: a structured result, or a thrown
exception. -/
inductive UOutcome (α ε : Type) where
  | res : UResult α ε → UOutcome α ε
  | exn : ε → UOutcome α ε
deriving DecidableEq, Repr

/-- Value returned by retryUpload: either the raw result handed back
unchanged (a success, or a failure flagged non-retryable), or the
all-attempts-exhausted shape, a failure built by spreading lastError (its
retryable flag and payload; none when no attempt ran) and annotating it
with retriedAttempts = maxRetries and finalAttempt = true. An exception
thrown by an attempt breaks the loop and also produces the annotated
shape, with a lastError whose retryable flag is false. -/
inductive RetryReturn (α ε : Type) where
  | passthrough : UResult α ε → RetryReturn α ε
  | annotated : Option (Bool × ε) → Nat → RetryReturn α ε
deriving DecidableEq, Repr

/-- Loop of retryUpload. The fuel argument counts the remaining attempts
(maxRetries - attempt + 1); alongside the returned value the number of
times the wrapped function was invoked is reported. The delay between
retryable failures does not influence control flow and is not modelled. -/
def retryUploadAux {α ε : Type} (op : Nat → UOutcome α ε) (maxRetries : Nat) :
    Nat → Nat → Option (Bool × ε) → RetryReturn α ε × Nat
  | 0, attempt, lastError => (.annotated lastError maxRetries, attempt - 1)
  | fuel + 1, attempt, _lastError =>
    match op attempt with
    | .res (.success a) => (.passthrough (.success a), attempt)
    | .res (.failure false e) => (.passthrough (.failure false e), attempt)
    | .res (.failure true e) =>
      retryUploadAux op maxRetries fuel (attempt + 1) (some (true, e))
    | .exn e => (.annotated (some (false, e)) maxRetries, attempt)

/-- retryUpload of the upload service: run the operation up to maxRetries
times, return a success or a non-retryable failure as is, remember the last
retryable error, stop on a thrown exception, and after exhaustion return
the last error annotated with retriedAttempts = maxRetries. -/
def retryUpload {α ε : Type} (op : Nat → UOutcome α ε) (maxRetries : Nat) :
    RetryReturn α ε × Nat :=
  retryUploadAux op maxRetries maxRetries 1 none

/-- Running the loop across k consecutive retryable failures advances the
attempt counter by k and carries the last of those errors. -/
theorem retryUploadAux_skip {α ε : Type} (op : Nat → UOutcome α ε)
    (maxRetries : Nat) (e : Nat → ε) (k : Nat) :
    ∀ (fuel attempt : Nat) (le : Option (Bool × ε)), k ≤ fuel →
    (∀ i, attempt ≤ i → i < attempt + k → op i = .res (.failure true (e i))) →
    retryUploadAux op maxRetries fuel attempt le =
      retryUploadAux op maxRetries (fuel - k) (attempt + k)
        (if k = 0 then le else some (true, e (attempt + k - 1))) := by
  induction k with
  | zero =>
    intro fuel attempt le hk hops
    simp
  | succ k ih =>
    intro fuel attempt le hk hops
    cases fuel with
    | zero => omega
    | succ f =>
      have hop : op attempt = .res (.failure true (e attempt)) :=
        hops attempt (le_refl _) (by omega)
      have heq : retryUploadAux op maxRetries (f + 1) attempt le =
          match op attempt with
          | .res (.success a) => (.passthrough (.success a), attempt)
          | .res (.failure false e0) => (.passthrough (.failure false e0), attempt)
          | .res (.failure true e0) =>
            retryUploadAux op maxRetries f (attempt + 1) (some (true, e0))
          | .exn e0 => (.annotated (some (false, e0)) maxRetries, attempt) := rfl
      have hstep : retryUploadAux op maxRetries (f + 1) attempt le =
          retryUploadAux op maxRetries f (attempt + 1) (some (true, e attempt)) := by
        rw [heq, hop]
      rw [hstep]
      have ih2 := ih f (attempt + 1) (some (true, e attempt)) (by omega)
        (fun i h1 h2 => hops i (by omega) (by omega))
      rw [ih2]
      by_cases hk0 : k = 0
      · subst hk0
        simp
      · rw [if_neg hk0, if_neg (Nat.succ_ne_zero k)]
        rw [show f + 1 - (k + 1) = f - k from by omega,
          show attempt + (k + 1) = attempt + 1 + k from by omega]

/-- C1: for an operation that fails with a retryable error on attempts
1..M and succeeds on attempt M+1, retryUpload with maxRetries at least
M+1 returns the success result after exactly M+1 invocations, and
retryUpload with maxRetries = M (M at least 1) returns the final failure
annotated with retriedAttempts = M after exactly M invocations. -/
theorem C1_retry_policy {α ε : Type} (op : Nat → UOutcome α ε) (M : Nat)
    (a : α) (e : Nat → ε)
    (hfail : ∀ i, 1 ≤ i → i ≤ M → op i = .res (.failure true (e i)))
    (hsucc : op (M + 1) = .res (.success a)) :
    (∀ maxRetries, M + 1 ≤ maxRetries →
      retryUpload op maxRetries = (.passthrough (.success a), M + 1)) ∧
    (1 ≤ M → retryUpload op M = (.annotated (some (true, e M)) M, M)) := by
  constructor
  · intro maxRetries hle
    unfold retryUpload
    rw [retryUploadAux_skip op maxRetries e M maxRetries 1 none (by omega)
      (fun i h1 h2 => hfail i h1 (by omega))]
    cases hf : maxRetries - M with
    | zero => omega
    | succ f =>
      unfold retryUploadAux
      rw [show 1 + M = M + 1 from by omega, hsucc]
  · intro hM
    unfold retryUpload
    rw [retryUploadAux_skip op M e M M 1 none (le_refl M)
      (fun i h1 h2 => hfail i h1 (by omega))]
    rw [if_neg (by omega), Nat.sub_self]
    unfold retryUploadAux
    rw [show 1 + M - 1 = M from by omega]

/-- Witness for C1 with M = 2: two retryable failures then a success;
maxRetries 3 returns the success after 3 invocations, maxRetries 2 returns
the annotated final failure with retriedAttempts = 2. -/
theorem C1_retry_policy_witness :
    retryUpload (fun i => if i = 3 then .res (.success 7) else .res (.failure true i))
      3 = (.passthrough (.success (7 : Nat)), 3) ∧
    retryUpload (fun i => if i = 3 then .res (.success 7) else .res (.failure true i))
      2 = (.annotated (some (true, (2 : Nat))) 2, 2) := by
  have h := C1_retry_policy
    (fun i => if i = 3 then .res (.success 7) else .res (.failure true i)) 2 7
    (fun i => i)
    (by
      intro i h1 h2
      interval_cases i <;> rfl)
    rfl
  exact ⟨h.1 3 (by omega), h.2 (by omega)⟩

/-- Response of the store to a HeadObject call for a key: the object is
there, the store answers NotFound, or the call fails with another error. -/
inductive HeadResp (ε : Type) where
  | found : HeadResp ε
  | notFound : HeadResp ε
  | fail : ε → HeadResp ε
deriving DecidableEq, Repr

/-- Behaviour of the object store as seen by the service: what HeadObject
answers per key, and whether DeleteObject throws (some error) or succeeds
(none) per key. -/
structure S3Store (ε : Type) where
  head : String → HeadResp ε
  deleteResp : String → Option ε

/-- checkFileExists of the S3 service: HeadObject success means the file
exists, a NotFound error means it does not, and any other error is
rethrown. -/
def checkFileExists {ε : Type} (store : S3Store ε) (s3Key : String) :
    Except ε Bool :=
  match store.head s3Key with
  | .found => .ok true
  | .notFound => .ok false
  | .fail e => .error e

/-- deleteFileFromS3 of the S3 service: success true when DeleteObject
succeeds, success false with the error otherwise. -/
def deleteFileFromS3 {ε : Type} (store : S3Store ε) (s3Key : String) :
    Except ε Unit :=
  match store.deleteResp s3Key with
  | none => .ok ()
  | some e => .error e

/-- Shapes returned by deleteUploadedFile. -/
inductive DeleteUploadedResult (ε : Type) where
  /-- success true with the message that the file does not exist
  (already deleted or never existed) -/
  | alreadyAbsent : DeleteUploadedResult ε
  /-- success true from deleteFileFromS3 -/
  | deleted : DeleteUploadedResult ε
  /-- success false propagated from deleteFileFromS3 -/
  | deleteFailed : ε → DeleteUploadedResult ε
  /-- success false built in the catch branch for an unexpected error -/
  | unexpectedError : ε → DeleteUploadedResult ε
deriving DecidableEq, Repr

/-- The success flag of each deleteUploadedFile result shape. -/
def deleteResultSuccess {ε : Type} : DeleteUploadedResult ε → Bool
  | .alreadyAbsent => true
  | .deleted => true
  | .deleteFailed _ => false
  | .unexpectedError _ => false

/-- deleteUploadedFile of the upload service: check existence first and
return success when the file is absent; otherwise delete and pass the
delete result through; an exception from the existence check is caught and
returned as a failure. -/
def deleteUploadedFile {ε : Type} (store : S3Store ε) (s3Key : String) :
    DeleteUploadedResult ε :=
  match checkFileExists store s3Key with
  | .error e => .unexpectedError e
  | .ok false => .alreadyAbsent
  | .ok true =>
    match deleteFileFromS3 store s3Key with
    | .ok _ => .deleted
    | .error e => .deleteFailed e

/-- C9: for every key the store reports as not found, deleteUploadedFile
returns the success shape carrying the already-deleted-or-never-existed
message, never a failure. -/
theorem C9_delete_absent_is_success {ε : Type} (store : S3Store ε)
    (s3Key : String) (h : store.head s3Key = .notFound) :
    deleteUploadedFile store s3Key = .alreadyAbsent ∧
    deleteResultSuccess (deleteUploadedFile store s3Key) = true := by
  have hres : deleteUploadedFile store s3Key = .alreadyAbsent := by
    unfold deleteUploadedFile checkFileExists
    rw [h]
  exact ⟨hres, by rw [hres]; rfl⟩

/-- Witness for C9 at a store that holds no objects. -/
theorem C9_delete_absent_is_success_witness :
    deleteUploadedFile (ε := Unit)
      ⟨fun _ => .notFound, fun _ => none⟩ "uploads/missing.png" = .alreadyAbsent := by
  exact (C9_delete_absent_is_success ⟨fun _ => .notFound, fun _ => none⟩
    "uploads/missing.png" rfl).1

/-- Multer file object as validateFileMetadata receives it; each field may
be absent (JavaScript undefined). -/
structure JsFile where
  originalname : Option (List Char)
  size : Option Nat
  mimetype : Option String

/-- Validation error strings pushed by validateFileMetadata, one
constructor per push site. -/
inductive MetaError where
  /-- "No file provided" -/
  | noFile : MetaError
  /-- "File size ... exceeds limit of ..." -/
  | sizeExceedsLimit : MetaError
  /-- "File is empty" -/
  | fileEmpty : MetaError
  /-- "MIME type ... not allowed. ..." -/
  | mimeNotAllowed : Option String → MetaError
  /-- "File extension ... is not allowed for security reasons" -/
  | dangerousExtension : List Char → MetaError
  /-- "Filename cannot be empty" -/
  | emptyFilename : MetaError
  /-- "Filename contains invalid characters" -/
  | suspiciousFilename : MetaError
deriving DecidableEq, Repr

/-- Exception escaping validateFileMetadata: path.extname applied to a
non-string throws a TypeError. -/
inductive JsError where
  | typeError : JsError
deriving DecidableEq, Repr

/-- Result object of validateFileMetadata. -/
structure MetaResult where
  isValid : Bool
  errors : List MetaError
deriving DecidableEq, Repr

/-- DANGEROUS_EXTENSIONS of the validator module. -/
def DANGEROUS_EXTENSIONS : List (List Char) :=
  [".exe".toList, ".bat".toList, ".cmd".toList, ".com".toList, ".pif".toList,
   ".scr".toList, ".vbs".toList, ".js".toList, ".jar".toList, ".app".toList,
   ".deb".toList, ".pkg".toList, ".dmg".toList, ".run".toList, ".msi".toList,
   ".dll".toList, ".so".toList, ".php".toList, ".asp".toList, ".jsp".toList,
   ".py".toList, ".rb".toList, ".pl".toList, ".sh".toList, ".bash".toList]

/-- The Node function path.extname on an arbitrary path: trailing separators are
ignored and only the last path segment is inspected. -/
def extnameJS (s : List Char) : List Char :=
  let trimmed := (s.reverse.dropWhile (fun c => c = '/')).reverse
  let seg := (trimmed.reverse.takeWhile (fun c => c ≠ '/')).reverse
  extnameNS seg

/-- JavaScript String trim: strip whitespace from both ends. -/
def jsTrim (s : List Char) : List Char :=
  ((s.dropWhile Char.isWhitespace).reverse.dropWhile Char.isWhitespace).reverse

/-- validateFileMetadata of the validator module. The size and MIME checks
follow JavaScript comparison semantics for an absent field (an undefined
size is neither greater than the limit nor strictly equal to 0, and an
absent MIME type is never in the allow-list); computing the extension of an
absent originalname throws, modelled as `Except.error`. -/
def validateFileMetadata (file : Option JsFile) : Except JsError MetaResult :=
  match file with
  | none => .ok ⟨false, [.noFile]⟩
  | some f =>
    let e1 :=
      if (match f.size with
          | some s => decide (MAX_FILE_SIZE < s)
          | none => false) then
        [MetaError.sizeExceedsLimit]
      else []
    let e2 := if f.size = some 0 then [MetaError.fileEmpty] else []
    let e3 :=
      if (match f.mimetype with
          | some m => ALLOWED_MIME_TYPES.contains m
          | none => false) then []
      else [MetaError.mimeNotAllowed f.mimetype]
    match f.originalname with
    | none => .error .typeError
    | some name =>
      let extension := (extnameJS name).map Char.toLower
      let e4 :=
        if DANGEROUS_EXTENSIONS.contains extension then
          [MetaError.dangerousExtension extension]
        else []
      let e5 := if name = [] ∨ jsTrim name = [] then [MetaError.emptyFilename] else []
      let e6 :=
        if (List.IsInfix "..".toList name ∨ List.IsInfix ['/'] name ∨
            List.IsInfix ['\\'] name) then
          [MetaError.suspiciousFilename]
        else []
      let errors := e1 ++ e2 ++ e3 ++ e4 ++ e5 ++ e6
      .ok ⟨errors.isEmpty, errors⟩

/-- C10: validateFileMetadata is not total: a file object that is present
but has no originalname makes it throw a TypeError (from path.extname on
undefined) instead of returning an isValid false result. -/
theorem C10_missing_originalname_throws :
    validateFileMetadata (some ⟨none, some 1024, some "image/png"⟩) =
      .error .typeError := by
  rfl
